import Mathlib

/-!
Verification of the release/publish orchestration engine of the `craft`
repository against its specification. The TypeScript sources are embedded
shallowly: pure computations become Lean functions, the mutable caches of the
artifact store become explicit state passing, promises become settled values,
and fallible operations return `Except`. Collaborators that live outside the
repository (the Zeus client transport, the git client, the GitHub client) are
passed in as function-valued parameters, and a log of the collaborator calls a
function issues is returned alongside its result so that memoization and the
dry-run gate become observable.
-/

namespace Craft

/-- Artifact of the external Zeus store: a named build output of one revision.
The field download_url is the stable identity key used by the download cache;
the field mimeType embeds the optional `type` attribute. -/
structure Artifact where
  name : String
  download_url : String
  mimeType : Option String := none
deriving DecidableEq

/-- FilterOptions of src/stores/zeus.ts: optional matchers tested against
Artifact.name. A regular expression is embedded as its match predicate on
strings (RegExp.test). -/
structure FilterOptions where
  includeNames : Option (String → Bool) := none
  excludeNames : Option (String → Bool) := none

/-- A transport failure of the Zeus client while downloading. -/
inductive DownloadError
  | transport (message : String)
deriving DecidableEq

instance {ε α : Type} [DecidableEq ε] [DecidableEq α] : DecidableEq (Except ε α)
  | .ok a, .ok b => if h : a = b then .isTrue (by rw [h]) else .isFalse (by simp [h])
  | .ok _, .error _ => .isFalse (by simp)
  | .error _, .ok _ => .isFalse (by simp)
  | .error a, .error b =>
    if h : a = b then .isTrue (by rw [h]) else .isFalse (by simp [h])

/-- State of a ZeusStore instance (src/stores/zeus.ts): the URL cache of
downloads (downloadCache) and the revision cache of artifact listings
(fileListCache), each mapping a key to the settled value of the cached
promise. The two call logs record every transport call the store issues
(client.downloadArtifact and client.listArtifactsForRevision); the code keeps
no such log, it is added to make the memoization observable. -/
structure ZeusStoreState where
  downloadCache : List (String × Except DownloadError String) := []
  fileListCache : List (String × List Artifact) := []
  downloadCalls : List String := []
  listCalls : List String := []
deriving DecidableEq

/-- ZeusStore.downloadArtifact (src/stores/zeus.ts lines 56-64): consult the
URL cache under artifact.download_url; on a hit return the cached promise, on
a miss issue the transport download and store the promise in the cache. The
promise is stored before anything awaits it, so its settled value is cached
whether it fulfils or rejects; the transport collaborator
(client.downloadArtifact) is passed as a function of the URL. -/
def downloadArtifact (client : String → Except DownloadError String)
    (s : ZeusStoreState) (artifact : Artifact) :
    Except DownloadError String × ZeusStoreState :=
  match s.downloadCache.lookup artifact.download_url with
  | some cached => (cached, s)
  | none =>
    let result := client artifact.download_url
    (result,
      { s with
        downloadCache := (artifact.download_url, result) :: s.downloadCache
        downloadCalls := s.downloadCalls ++ [artifact.download_url] })

/-- ZeusStore.downloadArtifacts (src/stores/zeus.ts lines 74-78): download a
list of artifacts through the same cache. The concurrent Promise.all is
embedded sequentially: JavaScript interleaves the calls on one thread and each
call checks and fills the cache with no suspension point in between, so every
interleaving is some sequential order of the calls. -/
def downloadArtifacts (client : String → Except DownloadError String)
    (s : ZeusStoreState) :
    List Artifact → List (Except DownloadError String) × ZeusStoreState
  | [] => ([], s)
  | artifact :: rest =>
    let first := downloadArtifact client s artifact
    let later := downloadArtifacts client first.2 rest
    (first.1 :: later.1, later.2)

/-- ZeusStore.listArtifactsForRevision (src/stores/zeus.ts lines 85-97):
consult the revision cache; on a miss call the Zeus client
(client.listArtifactsForRevision with the configured owner and name) and cache
the listing. -/
def listArtifactsForRevision (client : String → List Artifact)
    (s : ZeusStoreState) (revision : String) : List Artifact × ZeusStoreState :=
  match s.fileListCache.lookup revision with
  | some cached => (cached, s)
  | none =>
    let result := client revision
    (result,
      { s with
        fileListCache := (revision, result) :: s.fileListCache
        listCalls := s.listCalls ++ [revision] })

/-- ZeusStore.filterArtifactsForRevision (src/stores/zeus.ts lines 105-125):
fetch the listing, return it unchanged when filterOptions is absent, otherwise
keep the artifacts matching includeNames (when present) and then drop the
artifacts matching excludeNames (when present). -/
def filterArtifactsForRevision (client : String → List Artifact)
    (s : ZeusStoreState) (revision : String)
    (filterOptions : Option FilterOptions := none) :
    List Artifact × ZeusStoreState :=
  let fetched := listArtifactsForRevision client s revision
  match filterOptions with
  | none => fetched
  | some fo =>
    let afterInclude :=
      match fo.includeNames with
      | some includeNames =>
        fetched.1.filter fun artifact => includeNames artifact.name
      | none => fetched.1
    let afterExclude :=
      match fo.excludeNames with
      | some excludeNames =>
        afterInclude.filter fun artifact => !excludeNames artifact.name
      | none => afterInclude
    (afterExclude, fetched.2)

/-- Build status of a revision. Modelled from the spec: the Status enumeration
of the external zeus sdk is not part of the repository; the spec data model
gives a Revision "an associated Status (pending/finished)". -/
inductive Status
  | pending
  | finished
deriving DecidableEq

/-- Build result of a revision. Modelled from the spec: the Result enumeration
of the external zeus sdk is not part of the repository; the spec data model
gives a Revision a "Result (passed/failed)". -/
inductive Result
  | passed
  | failed
deriving DecidableEq

/-- RevisionInfo: aggregated status and result of one revision, as returned by
ZeusStore.getRevision. -/
structure RevisionInfo where
  status : Status
  result : Result
deriving DecidableEq

/-- ZeusStore.isRevisionBuiltSuccessfully (src/stores/zeus.ts lines 141-146). -/
def isRevisionBuiltSuccessfully (revisionInfo : RevisionInfo) : Bool :=
  revisionInfo.status == Status.finished && revisionInfo.result == Result.passed

/-- ZeusStore.isRevisionFailed (src/stores/zeus.ts lines 153-158). -/
def isRevisionFailed (revisionInfo : RevisionInfo) : Bool :=
  revisionInfo.status == Status.finished && !(revisionInfo.result == Result.passed)

/-- ZeusStore.isRevisionPending (src/stores/zeus.ts lines 165-167). -/
def isRevisionPending (revisionInfo : RevisionInfo) : Bool :=
  !(revisionInfo.status == Status.finished)

/-- DEFAULT_PYPI_REGEX of the pypi target: the match predicate of the regular
expression (\.whl|\.gz|\.zip)$ against a file name, which holds exactly when
the name ends in one of the three extensions. The suffix test is computed on
the character lists of the strings so that it evaluates by reduction. -/
def defaultPypiRegexTest (name : String) : Bool :=
  (".whl".data.isSuffixOf name.data) || (".gz".data.isSuffixOf name.data) ||
    (".zip".data.isSuffixOf name.data)

/-- C4: for every revision and filter options, the filtered artifact list is a
subset of the unfiltered listing of the same revision from the same store
state: filtering never adds an artifact that is not in the listing. -/
theorem filterArtifactsForRevision_subset
    (client : String → List Artifact) (s : ZeusStoreState) (revision : String)
    (filterOptions : Option FilterOptions) :
    (filterArtifactsForRevision client s revision filterOptions).1 ⊆
      (listArtifactsForRevision client s revision).1 := by
  cases filterOptions with
  | none => exact fun a h => h
  | some fo =>
    intro a ha
    cases hinc : fo.includeNames <;> cases hexc : fo.excludeNames <;>
      simp only [filterArtifactsForRevision, hinc, hexc, List.mem_filter] at ha <;>
      first
        | exact ha
        | exact ha.1
        | exact ha.1.1

/-- C5: filterArtifactsForRevision applies the include matcher and then the
exclude matcher: with filter options present, an artifact is kept exactly when
it is listed, matches includeNames when present, and does not match
excludeNames when present; with filter options absent the full unfiltered
listing is returned; on the listing of the example scenario (pkg-1.0.0.whl,
pkg-1.0.0.tar.gz, readme.txt) with includeNames the default pypi regex, the
filtered set is exactly the two package files. -/
theorem filterArtifactsForRevision_spec :
    (∀ (client : String → List Artifact) (s : ZeusStoreState) (revision : String),
      (filterArtifactsForRevision client s revision none).1 =
        (listArtifactsForRevision client s revision).1) ∧
    (∀ (client : String → List Artifact) (s : ZeusStoreState) (revision : String)
        (fo : FilterOptions) (a : Artifact),
      a ∈ (filterArtifactsForRevision client s revision (some fo)).1 ↔
        (a ∈ (listArtifactsForRevision client s revision).1 ∧
          (∀ p, fo.includeNames = some p → p a.name = true) ∧
          (∀ p, fo.excludeNames = some p → p a.name = false))) ∧
    (filterArtifactsForRevision
        (fun _ =>
          [{ name := "pkg-1.0.0.whl", download_url := "u1" },
           { name := "pkg-1.0.0.tar.gz", download_url := "u2" },
           { name := "readme.txt", download_url := "u3" }])
        {} "abc123" (some { includeNames := some defaultPypiRegexTest })).1 =
      [{ name := "pkg-1.0.0.whl", download_url := "u1" },
       { name := "pkg-1.0.0.tar.gz", download_url := "u2" }] := by
  refine ⟨fun client s revision => rfl, ?_, by decide⟩
  intro client s revision fo a
  cases hinc : fo.includeNames <;> cases hexc : fo.excludeNames <;>
    simp [filterArtifactsForRevision, List.mem_filter, hinc, hexc, and_assoc]
  all_goals tauto

/-- A store state is aligned when a URL is cached in the download cache exactly
when the transport has been called on it, and the transport has been called at
most once per URL. Every state reachable from the fresh store is aligned. -/
def DownloadLogAligned (s : ZeusStoreState) : Prop :=
  ∀ url, ((s.downloadCache.lookup url).isSome ↔ url ∈ s.downloadCalls) ∧
    s.downloadCalls.count url ≤ 1

lemma downloadLogAligned_empty : DownloadLogAligned {} := by
  intro url
  constructor
  · simp [List.lookup]
  · simp

lemma downloadArtifact_aligned (client : String → Except DownloadError String)
    (s : ZeusStoreState) (artifact : Artifact) (h : DownloadLogAligned s) :
    DownloadLogAligned (downloadArtifact client s artifact).2 := by
  unfold downloadArtifact
  cases hc : s.downloadCache.lookup artifact.download_url with
  | some cached => exact h
  | none =>
    intro url
    obtain ⟨hmem, hcount⟩ := h url
    by_cases he : artifact.download_url = url
    · subst he
      have hnotmem : artifact.download_url ∉ s.downloadCalls := by
        rw [← hmem, hc]
        simp
      constructor
      · simp [List.lookup]
      · simp [List.count_append, List.count_eq_zero.mpr hnotmem]
    · have hbe : (url == artifact.download_url) = false :=
        beq_eq_false_iff_ne.mpr fun h' => he h'.symm
      constructor
      · simp only [List.lookup, hbe, List.mem_append, List.mem_singleton]
        rw [hmem]
        constructor
        · exact Or.inl
        · rintro (hin | heq)
          · exact hin
          · exact absurd heq.symm he
      · have h0 : List.count url [artifact.download_url] = 0 :=
          List.count_eq_zero.mpr (by simpa using fun h' => he h'.symm)
        simpa [List.count_append, h0] using hcount

lemma downloadArtifacts_aligned (client : String → Except DownloadError String) :
    ∀ (artifacts : List Artifact) (s : ZeusStoreState), DownloadLogAligned s →
      DownloadLogAligned (downloadArtifacts client s artifacts).2
  | [], _, h => h
  | artifact :: rest, s, h =>
    downloadArtifacts_aligned client rest _
      (downloadArtifact_aligned client s artifact h)

lemma downloadArtifact_hit (client : String → Except DownloadError String)
    (s : ZeusStoreState) (artifact : Artifact)
    (r : Except DownloadError String)
    (h : s.downloadCache.lookup artifact.download_url = some r) :
    downloadArtifact client s artifact = (r, s) := by
  unfold downloadArtifact
  rw [h]

lemma downloadArtifact_caches (client : String → Except DownloadError String)
    (s : ZeusStoreState) (artifact : Artifact) :
    ((downloadArtifact client s artifact).2).downloadCache.lookup
        artifact.download_url = some (downloadArtifact client s artifact).1 := by
  unfold downloadArtifact
  cases hc : s.downloadCache.lookup artifact.download_url with
  | some cached => exact hc
  | none => simp [List.lookup]

lemma downloadArtifact_lookup_preserved
    (client : String → Except DownloadError String) (s : ZeusStoreState)
    (artifact : Artifact) (url : String) (r : Except DownloadError String)
    (h : s.downloadCache.lookup url = some r) :
    ((downloadArtifact client s artifact).2).downloadCache.lookup url = some r := by
  unfold downloadArtifact
  cases hc : s.downloadCache.lookup artifact.download_url with
  | some cached => exact h
  | none =>
    have hne : artifact.download_url ≠ url := by
      intro he
      rw [he, h] at hc
      cases hc
    have hbe : (url == artifact.download_url) = false :=
      beq_eq_false_iff_ne.mpr fun h' => hne h'.symm
    simp only [List.lookup, hbe]
    exact h

lemma downloadArtifacts_lookup_preserved
    (client : String → Except DownloadError String) (url : String)
    (r : Except DownloadError String) :
    ∀ (artifacts : List Artifact) (s : ZeusStoreState),
      s.downloadCache.lookup url = some r →
      ((downloadArtifacts client s artifacts).2).downloadCache.lookup url = some r
  | [], _, h => h
  | artifact :: rest, s, h =>
    downloadArtifacts_lookup_preserved client url r rest _
      (downloadArtifact_lookup_preserved client s artifact url r h)

/-- C3: downloads are memoized per download_url for the lifetime of the store.
Starting from the fresh store, any sequence of downloads issues at most one
transport call per URL; and once an artifact has been downloaded, a repeated
call for any artifact with the same download_url returns the result of the
first call and leaves the store state untouched, so it issues no new transport
call and resolves to the same path. -/
theorem downloadArtifact_memoized :
    (∀ (client : String → Except DownloadError String)
        (artifacts : List Artifact) (url : String),
      ((downloadArtifacts client {} artifacts).2).downloadCalls.count url ≤ 1) ∧
    (∀ (client : String → Except DownloadError String) (s : ZeusStoreState)
        (artifact laterArtifact : Artifact),
      laterArtifact.download_url = artifact.download_url →
      downloadArtifact client (downloadArtifact client s artifact).2 laterArtifact =
        ((downloadArtifact client s artifact).1,
          (downloadArtifact client s artifact).2)) := by
  constructor
  · intro client artifacts url
    exact ((downloadArtifacts_aligned client artifacts {}
      downloadLogAligned_empty) url).2
  · intro client s artifact laterArtifact hurl
    apply downloadArtifact_hit
    rw [hurl]
    exact downloadArtifact_caches client s artifact

/-- C10: a failed download is cached under its download_url exactly like a
success: the first call returns the transport failure, an immediate repeat
returns the same failure without touching the store again, and the failure
stays in the cache through any further downloads, so no later call for that
URL can reach the transport again. -/
theorem downloadArtifact_failure_cached
    (client : String → Except DownloadError String) (s : ZeusStoreState)
    (artifact : Artifact) (e : DownloadError)
    (hmiss : s.downloadCache.lookup artifact.download_url = none)
    (herr : client artifact.download_url = Except.error e) :
    (downloadArtifact client s artifact).1 = Except.error e ∧
    downloadArtifact client (downloadArtifact client s artifact).2 artifact =
      (Except.error e, (downloadArtifact client s artifact).2) ∧
    (∀ rest : List Artifact,
      ((downloadArtifacts client (downloadArtifact client s artifact).2
          rest).2).downloadCache.lookup artifact.download_url =
        some (Except.error e)) := by
  have hfst : (downloadArtifact client s artifact).1 = Except.error e := by
    unfold downloadArtifact
    rw [hmiss]
    exact herr
  have hcached := downloadArtifact_caches client s artifact
  rw [hfst] at hcached
  refine ⟨hfst, ?_, ?_⟩
  · rw [downloadArtifact_hit client _ artifact _ hcached]
  · intro rest
    exact downloadArtifacts_lookup_preserved client _ _ rest _ hcached

/-- Witness: downloadArtifact_failure_cached at the fresh store, a concrete
artifact and a transport that always fails. -/
theorem downloadArtifact_failure_cached_witness :
    ((downloadArtifact (fun _ => Except.error (DownloadError.transport "boom"))
        {} { name := "pkg", download_url := "u1" }).1 =
      Except.error (DownloadError.transport "boom")) ∧
    downloadArtifact (fun _ => Except.error (DownloadError.transport "boom"))
        (downloadArtifact (fun _ => Except.error (DownloadError.transport "boom"))
          {} { name := "pkg", download_url := "u1" }).2
        { name := "pkg", download_url := "u1" } =
      (Except.error (DownloadError.transport "boom"),
        (downloadArtifact (fun _ => Except.error (DownloadError.transport "boom"))
          {} { name := "pkg", download_url := "u1" }).2) ∧
    (∀ rest : List Artifact,
      ((downloadArtifacts (fun _ => Except.error (DownloadError.transport "boom"))
          (downloadArtifact (fun _ => Except.error (DownloadError.transport "boom"))
            {} { name := "pkg", download_url := "u1" }).2
          rest).2).downloadCache.lookup "u1" =
        some (Except.error (DownloadError.transport "boom"))) :=
  downloadArtifact_failure_cached
    (fun _ => Except.error (DownloadError.transport "boom")) {}
    { name := "pkg", download_url := "u1" } (DownloadError.transport "boom")
    rfl rfl

/-- C9: the three revision predicates are mutually exclusive and exhaustive:
for every revision info exactly one of isRevisionBuiltSuccessfully,
isRevisionFailed and isRevisionPending is true. -/
theorem revision_predicates_partition (revisionInfo : RevisionInfo) :
    (isRevisionBuiltSuccessfully revisionInfo = true ∨
      isRevisionFailed revisionInfo = true ∨
      isRevisionPending revisionInfo = true) ∧
    ¬(isRevisionBuiltSuccessfully revisionInfo = true ∧
      isRevisionFailed revisionInfo = true) ∧
    ¬(isRevisionBuiltSuccessfully revisionInfo = true ∧
      isRevisionPending revisionInfo = true) ∧
    ¬(isRevisionFailed revisionInfo = true ∧
      isRevisionPending revisionInfo = true) := by
  obtain ⟨status, result⟩ := revisionInfo
  cases status <;> cases result <;> decide

/-- JavaScript object spread of two FilterOptions records, the first operand
spread first: an option key present on the second operand overwrites the same
key of the first operand, a key absent from the second operand keeps the value
of the first. -/
def spreadFilterOptions (first second : FilterOptions) : FilterOptions :=
  { includeNames :=
      match second.includeNames with
      | some matcher => some matcher
      | none => first.includeNames
    excludeNames :=
      match second.excludeNames with
      | some matcher => some matcher
      | none => first.excludeNames }

/-- BaseTarget.getArtifactsForRevision (unnamed part_000 lines 55-63):
delegates to the store with the spread of the target filterOptions followed by
the call-site defaultFilterOptions, so a key present on the call-site default
overwrites the same key of the target filter. -/
def getArtifactsForRevision (targetFilterOptions : FilterOptions)
    (client : String → List Artifact) (s : ZeusStoreState) (revision : String)
    (defaultFilterOptions : FilterOptions := {}) :
    List Artifact × ZeusStoreState :=
  filterArtifactsForRevision client s revision
    (some (spreadFilterOptions targetFilterOptions defaultFilterOptions))

/-- The merge the spec words describe for getArtifactsForRevision, stated for
comparison with the code: the target own include/exclude filters take
precedence over the call-site default filter on every option key where both
are present. -/
def specMergeOwnWins (own defaultFilterOptions : FilterOptions) : FilterOptions :=
  { includeNames :=
      match own.includeNames with
      | some matcher => some matcher
      | none => defaultFilterOptions.includeNames
    excludeNames :=
      match own.excludeNames with
      | some matcher => some matcher
      | none => defaultFilterOptions.excludeNames }

/-- C2: at a target filter and a call-site default filter that disagree on
includeNames, getArtifactsForRevision keeps an artifact that the target own
include filter rejects: the object spread in the code lets the call-site
default overwrite the target own filter, the opposite of the precedence the
claim states; the own-precedence merge the spec describes filters the same
artifact out. -/
theorem getArtifactsForRevision_default_overrides_own :
    (getArtifactsForRevision
        { includeNames := some fun n => n == "special.txt" }
        (fun _ => [{ name := "readme.txt", download_url := "u1" }])
        {} "abc123"
        { includeNames := some fun _ => true }).1 =
      [{ name := "readme.txt", download_url := "u1" }] ∧
    (filterArtifactsForRevision
        (fun _ => [{ name := "readme.txt", download_url := "u1" }])
        {} "abc123"
        (some (specMergeOwnWins
          { includeNames := some fun n => n == "special.txt" }
          { includeNames := some fun _ => true }))).1 = [] := by
  exact ⟨by decide, by decide⟩

/-- One state-changing call to the git collaborator (simple-git). -/
inductive GitCall
  | checkoutLocalBranch (branchName : String)
  | commit (message : String) (allFlag : Bool)
  | push (remote : String) (branchName : String) (setUpstream : Bool)
deriving DecidableEq

/-- Status of the working tree as the git collaborator reports it: the current
branch, the six change lists and the number of commits the local branch is
ahead of the remote. -/
structure RepoStatus where
  current : String
  conflicted : List String := []
  created : List String := []
  deleted : List String := []
  modified : List String := []
  renamed : List String := []
  staged : List String := []
  ahead : Nat := 0
deriving DecidableEq

/-- Failure of git revparse: the unknown-revision message that
createReleaseBranch swallows, or any other error that it rethrows. -/
inductive RevparseError
  | unknownRevision
  | other (message : String)
deriving DecidableEq

/-- Environment of one run of the release command: the read-only answers of
the collaborators. statusAtCheck is the status checkGitState reads,
statusAfterHook the status commitNewVersion reads once the pre-release command
has run, revparse the resolver for a branch name, and preReleaseOk tells
whether the pre-release command exits with code 0. Identical inputs for a dry
and a live run mean one and the same environment value. -/
structure GitEnv where
  isRepo : Bool
  statusAtCheck : RepoStatus
  statusAfterHook : RepoStatus
  revparse : String → Except RevparseError String
  preReleaseOk : Bool

/-- Errors of the release command pipeline. -/
inductive ReleaseError
  | notARepo
  | wrongBranch (defaultBranch : String)
  | dirtyState
  | unpushed (ahead : Nat)
  | branchExists (branchName : String)
  | nothingToCommit
  | hookFailed
  | gitError (message : String)
deriving DecidableEq

/-- Modelled from the spec: shouldPerform of the external dryrun package is
not part of the repository. The spec describes the DryRunFlag as a
process-wide boolean read by every mutating operation and set once per run;
here the flag is passed explicitly, and shouldPerform holds exactly when
dry-run mode is off. -/
def shouldPerform (dryRun : Bool) : Bool := !dryRun

/-- Modelled from the spec: reportError of src/utils/errors is not among the
staged sources. The spec error taxonomy makes a PreconditionError fatal
("aborts before further mutation ... recovery is manual"), so reporting an
error raises it into the Except error channel. -/
def reportError (e : ReleaseError) : Except ReleaseError α := Except.error e

/-- checkGitState (unnamed part_002 lines 223-272): with the check disabled it
does nothing and passes; otherwise it fails when the working tree is not a
repository, when the current branch is not the default branch, when any of
the six change lists of the status is non-empty, or when the branch is ahead
of the remote. -/
def checkGitState (git : GitEnv) (defaultBranch : String)
    (checkGitStatus : Bool := true) : Except ReleaseError Unit :=
  if !checkGitStatus then Except.ok ()
  else if !git.isRepo then Except.error ReleaseError.notARepo
  else
    let repoStatus := git.statusAtCheck
    if defaultBranch != repoStatus.current then
      reportError (ReleaseError.wrongBranch defaultBranch)
    else if !repoStatus.conflicted.isEmpty || !repoStatus.created.isEmpty ||
        !repoStatus.deleted.isEmpty || !repoStatus.modified.isEmpty ||
        !repoStatus.renamed.isEmpty || !repoStatus.staged.isEmpty then
      reportError ReleaseError.dirtyState
    else if repoStatus.ahead > 0 then
      reportError (ReleaseError.unpushed repoStatus.ahead)
    else Except.ok ()

/-- createReleaseBranch (unnamed part_002 lines 98-124): derive the branch
name from the fixed template release/<version>; resolve it with revparse,
treating the unknown-revision error as an empty head and rethrowing any other
error; report the branch-exists error when the head is non-empty; under the
gate create the local branch, under dry-run only log; either way return the
derived branch name. -/
def createReleaseBranch (dryRun : Bool) (git : GitEnv) (newVersion : String) :
    Except ReleaseError String × List GitCall :=
  let branchName := "release/" ++ newVersion
  let branchHead : Except ReleaseError String :=
    match git.revparse branchName with
    | Except.ok sha => Except.ok sha
    | Except.error RevparseError.unknownRevision => Except.ok ""
    | Except.error (RevparseError.other message) =>
      Except.error (ReleaseError.gitError message)
  match branchHead with
  | Except.error e => (Except.error e, [])
  | Except.ok head =>
    if head != "" then
      (reportError (ReleaseError.branchExists branchName), [])
    else if shouldPerform dryRun then
      (Except.ok branchName, [GitCall.checkoutLocalBranch branchName])
    else
      (Except.ok branchName, [])

/-- pushReleaseBranch (unnamed part_002 lines 133-153): with the push flag
set, push the branch upstream under the gate and only log under dry-run; with
the flag unset, log the manual push command and do nothing. -/
def pushReleaseBranch (dryRun : Bool) (branchName : String)
    (pushFlag : Bool := true) : Except ReleaseError Unit × List GitCall :=
  if pushFlag then
    if shouldPerform dryRun then
      (Except.ok (), [GitCall.push "origin" branchName true])
    else
      (Except.ok (), [])
  else
    (Except.ok (), [])

/-- commitNewVersion (unnamed part_002 lines 161-178): report the
nothing-to-commit error when the status after the pre-release hook has no
created and no modified files; otherwise commit all pending changes with the
message release: <version> under the gate, and only log under dry-run. -/
def commitNewVersion (dryRun : Bool) (git : GitEnv) (newVersion : String) :
    Except ReleaseError Unit × List GitCall :=
  let message := "release: " ++ newVersion
  let repoStatus := git.statusAfterHook
  if !(!repoStatus.created.isEmpty || !repoStatus.modified.isEmpty) then
    (reportError ReleaseError.nothingToCommit, [])
  else if shouldPerform dryRun then
    (Except.ok (), [GitCall.commit message true])
  else
    (Except.ok (), [])

/-- runPreReleaseCommand (unnamed part_002 lines 189-214): spawn the
pre-release command. The spawn is not gated by shouldPerform, so it runs in
dry and live mode alike; a non-zero exit fails the pipeline. The external
process is summarised by the preReleaseOk flag of the environment. -/
def runPreReleaseCommand (git : GitEnv) : Except ReleaseError Unit :=
  if git.preReleaseOk then Except.ok () else Except.error ReleaseError.hookFailed

/-- The git sequence of the release command handler (unnamed part_002 lines
354-418): validate the git state, create the release branch, run the
pre-release command, commit the pending changes, push the branch. The string
of a successful run is the branch name; the list collects every state-changing
git collaborator call the run issued. -/
def releasePipeline (dryRun : Bool) (git : GitEnv)
    (defaultBranch newVersion : String) (noGitChecks noPush : Bool) :
    Except ReleaseError String × List GitCall :=
  match checkGitState git defaultBranch (!noGitChecks) with
  | Except.error e => (Except.error e, [])
  | Except.ok _ =>
    let branchStep := createReleaseBranch dryRun git newVersion
    match branchStep.1 with
    | Except.error e => (Except.error e, branchStep.2)
    | Except.ok branchName =>
      match runPreReleaseCommand git with
      | Except.error e => (Except.error e, branchStep.2)
      | Except.ok _ =>
        let commitStep := commitNewVersion dryRun git newVersion
        match commitStep.1 with
        | Except.error e => (Except.error e, branchStep.2 ++ commitStep.2)
        | Except.ok _ =>
          let pushStep := pushReleaseBranch dryRun branchName (!noPush)
          match pushStep.1 with
          | Except.error e =>
            (Except.error e, branchStep.2 ++ commitStep.2 ++ pushStep.2)
          | Except.ok _ =>
            (Except.ok branchName, branchStep.2 ++ commitStep.2 ++ pushStep.2)

lemma isEmpty_false_of_ne_nil {l : List String} (h : l ≠ []) :
    l.isEmpty = false := by
  cases l with
  | nil => exact absurd rfl h
  | cons a t => rfl

/-- C6: with git checks enabled, checkGitState passes exactly when the working
tree is a repository, the current branch is the default branch, all six change
lists are empty and the branch is not ahead of the remote; with checks
disabled it performs none of these checks and passes; and in the pipeline a
dirty tree (here at least one staged file) fails with the dirty-state error
before branch creation is attempted: the run issues no git call at all. -/
theorem checkGitState_spec :
    (∀ (git : GitEnv) (defaultBranch : String),
      checkGitState git defaultBranch false = Except.ok ()) ∧
    (∀ (git : GitEnv) (defaultBranch : String),
      checkGitState git defaultBranch true = Except.ok () ↔
        (git.isRepo = true ∧ git.statusAtCheck.current = defaultBranch ∧
          git.statusAtCheck.conflicted = [] ∧ git.statusAtCheck.created = [] ∧
          git.statusAtCheck.deleted = [] ∧ git.statusAtCheck.modified = [] ∧
          git.statusAtCheck.renamed = [] ∧ git.statusAtCheck.staged = [] ∧
          git.statusAtCheck.ahead = 0)) ∧
    (∀ (dryRun : Bool) (git : GitEnv) (defaultBranch newVersion : String)
        (noPush : Bool),
      git.isRepo = true → git.statusAtCheck.current = defaultBranch →
      git.statusAtCheck.staged ≠ [] →
      releasePipeline dryRun git defaultBranch newVersion false noPush =
        (Except.error ReleaseError.dirtyState, [])) := by
  refine ⟨fun git defaultBranch => rfl, ?_, ?_⟩
  · intro git defaultBranch
    by_cases h1 : git.isRepo = true
    case neg =>
      have h1' : git.isRepo = false := by
        revert h1
        cases git.isRepo <;> simp
      simp [checkGitState, h1', h1]
    case pos =>
      by_cases h2 : git.statusAtCheck.current = defaultBranch
      case neg =>
        have hbne : (defaultBranch != git.statusAtCheck.current) = true :=
          bne_iff_ne.mpr fun he => h2 he.symm
        simp only [checkGitState, reportError, h1, Bool.not_true,
          Bool.false_eq_true, if_false, hbne, if_true]
        simp
        tauto
      case pos =>
        have hbne : (defaultBranch != git.statusAtCheck.current) = false := by
          rw [h2]
          simp
        by_cases h3 : (!git.statusAtCheck.conflicted.isEmpty ||
            !git.statusAtCheck.created.isEmpty ||
            !git.statusAtCheck.deleted.isEmpty ||
            !git.statusAtCheck.modified.isEmpty ||
            !git.statusAtCheck.renamed.isEmpty ||
            !git.statusAtCheck.staged.isEmpty) = true
        case pos =>
          simp only [checkGitState, reportError, h1, Bool.not_true,
            Bool.false_eq_true, if_false, hbne, h3, if_true]
          simp
          intro _ hconfl hcre hdel hmod hren hstag _
          simp [hconfl, hcre, hdel, hmod, hren, hstag] at h3
        case neg =>
          have h3' : (!git.statusAtCheck.conflicted.isEmpty ||
              !git.statusAtCheck.created.isEmpty ||
              !git.statusAtCheck.deleted.isEmpty ||
              !git.statusAtCheck.modified.isEmpty ||
              !git.statusAtCheck.renamed.isEmpty ||
              !git.statusAtCheck.staged.isEmpty) = false := by
            revert h3
            cases (!git.statusAtCheck.conflicted.isEmpty ||
              !git.statusAtCheck.created.isEmpty ||
              !git.statusAtCheck.deleted.isEmpty ||
              !git.statusAtCheck.modified.isEmpty ||
              !git.statusAtCheck.renamed.isEmpty ||
              !git.statusAtCheck.staged.isEmpty) <;> simp
          simp only [Bool.or_eq_false_iff, Bool.not_eq_false',
            List.isEmpty_iff] at h3'
          obtain ⟨⟨⟨⟨⟨hconfl, hcre⟩, hdel⟩, hmod⟩, hren⟩, hstag⟩ := h3'
          by_cases h4 : git.statusAtCheck.ahead = 0
          case pos =>
            have hlt : ¬(git.statusAtCheck.ahead > 0) := by omega
            simp [checkGitState, reportError, h1, hbne, hconfl, hcre, hdel,
              hmod, hren, hstag, h4, hlt, h2]
          case neg =>
            have hlt : git.statusAtCheck.ahead > 0 := by omega
            simp [checkGitState, reportError, h1, hbne, hconfl, hcre, hdel,
              hmod, hren, hstag, hlt]
            tauto
  · intro dryRun git defaultBranch newVersion noPush h1 h2 h3
    have hbne : (defaultBranch != git.statusAtCheck.current) = false := by
      rw [h2]
      simp
    have hstag : git.statusAtCheck.staged.isEmpty = false :=
      isEmpty_false_of_ne_nil h3
    have hchk : checkGitState git defaultBranch true =
        Except.error ReleaseError.dirtyState := by
      simp [checkGitState, reportError, h1, hbne, hstag]
    simp [releasePipeline, hchk]

/-- C7 counterexample: after a pre-release hook whose only effect is deleting
a file, a file change exists in the working tree, yet the live commit step
fails with the nothing-to-commit error, against the claimed equivalence of
failing and the absence of file changes. -/
theorem commitNewVersion_deleted_counterexample :
    (commitNewVersion false
        { isRepo := true
          statusAtCheck := { current := "master" }
          statusAfterHook := { current := "master", deleted := ["old.txt"] }
          revparse := fun _ => Except.error RevparseError.unknownRevision
          preReleaseOk := true }
        "1.0.0").1 = Except.error ReleaseError.nothingToCommit ∧
    ({ current := "master", deleted := ["old.txt"] } : RepoStatus).deleted ≠
      [] := by
  exact ⟨rfl, by simp⟩

/-- C7 amended: the commit step fails with the nothing-to-commit error exactly
when the status after the pre-release hook has no created and no modified
files (deleted, renamed, staged or conflicted entries do not count as changes
here); and when a created or a modified file exists, the live run commits all
pending changes with the message release: <version>. -/
theorem commitNewVersion_spec :
    (∀ (dryRun : Bool) (git : GitEnv) (newVersion : String),
      (commitNewVersion dryRun git newVersion).1 =
          Except.error ReleaseError.nothingToCommit ↔
        (git.statusAfterHook.created = [] ∧
          git.statusAfterHook.modified = [])) ∧
    (∀ (git : GitEnv) (newVersion : String),
      ¬(git.statusAfterHook.created = [] ∧ git.statusAfterHook.modified = []) →
      commitNewVersion false git newVersion =
        (Except.ok (),
          [GitCall.commit ("release: " ++ newVersion) true])) := by
  constructor
  · intro dryRun git newVersion
    by_cases hc : git.statusAfterHook.created = []
    · by_cases hm : git.statusAfterHook.modified = []
      · simp [commitNewVersion, reportError, hc, hm]
      · have hm' := isEmpty_false_of_ne_nil hm
        cases dryRun <;>
          simp [commitNewVersion, reportError, shouldPerform, hm', hm]
    · have hc' := isEmpty_false_of_ne_nil hc
      cases dryRun <;>
        simp [commitNewVersion, reportError, shouldPerform, hc', hc]
  · intro git newVersion hne
    by_cases hc : git.statusAfterHook.created = []
    · have hm : git.statusAfterHook.modified ≠ [] := fun hm => hne ⟨hc, hm⟩
      have hm' := isEmpty_false_of_ne_nil hm
      simp [commitNewVersion, reportError, shouldPerform, hm']
    · have hc' := isEmpty_false_of_ne_nil hc
      simp [commitNewVersion, reportError, shouldPerform, hc']

/-- C8: createReleaseBranch derives the branch name from the fixed template
release/<version>: every successful run returns exactly that name; when
revparse resolves the name to a non-empty head, the run fails with the
branch-exists error; and under dry-run with the branch absent it issues no
checkout call and still returns the derived branch name. -/
theorem createReleaseBranch_spec :
    (∀ (dryRun : Bool) (git : GitEnv) (newVersion branchName : String),
      (createReleaseBranch dryRun git newVersion).1 = Except.ok branchName →
      branchName = "release/" ++ newVersion) ∧
    (∀ (dryRun : Bool) (git : GitEnv) (newVersion sha : String),
      git.revparse ("release/" ++ newVersion) = Except.ok sha → sha ≠ "" →
      (createReleaseBranch dryRun git newVersion).1 =
        Except.error (ReleaseError.branchExists ("release/" ++ newVersion))) ∧
    (∀ (git : GitEnv) (newVersion : String),
      git.revparse ("release/" ++ newVersion) =
          Except.error RevparseError.unknownRevision →
      createReleaseBranch true git newVersion =
        (Except.ok ("release/" ++ newVersion), [])) := by
  refine ⟨?_, ?_, ?_⟩
  · intro dryRun git newVersion branchName h
    cases hrev : git.revparse ("release/" ++ newVersion) with
    | ok sha =>
      by_cases hsha : sha = ""
      · subst hsha
        cases dryRun <;>
          simp [createReleaseBranch, hrev, shouldPerform, reportError] at h <;>
          exact h.symm
      · have hbne : (sha != "") = true := bne_iff_ne.mpr hsha
        simp [createReleaseBranch, hrev, hbne, reportError] at h
    | error err =>
      cases err with
      | unknownRevision =>
        cases dryRun <;>
          simp [createReleaseBranch, hrev, shouldPerform, reportError] at h <;>
          exact h.symm
      | other message =>
        simp [createReleaseBranch, hrev, reportError] at h
  · intro dryRun git newVersion sha hrev hsha
    have hbne : (sha != "") = true := bne_iff_ne.mpr hsha
    simp [createReleaseBranch, hrev, hbne, reportError]
  · intro git newVersion hrev
    simp [createReleaseBranch, hrev, shouldPerform, reportError]

/-- Error of the GitHub API collaborator: the 404 that getOrCreateRelease
swallows to take the create path, or any other error code, which it
rethrows. -/
inductive ApiError
  | notFound
  | http (code : Nat)
deriving DecidableEq

/-- The minimal GitHub release record of the github target (interface
GithubRelease in unnamed part_001). -/
structure GithubRelease where
  id : Nat
  tag_name : String
  upload_url : String
deriving DecidableEq

/-- One state-changing call to the GitHub collaborator. -/
inductive GhCall
  | createRelease (tag : String)
  | uploadAsset (assetName : String)
deriving DecidableEq

/-- Environment of the github target: getReleaseByTag answers the read-only
release lookup; createRelease is the collaborator result of creating a release
from the assembled parameters, as a function of the tag name, the prerelease
flag and the target commitish. The changelog fetch (getFile) and the changeset
extraction that shape the remaining create parameters are read-only
collaborators folded into that function. -/
structure GithubEnv where
  getReleaseByTag : String → Except ApiError GithubRelease
  createRelease : String → Bool → String → GithubRelease

/-- GithubTarget.getOrCreateRelease (unnamed part_001 lines 207-268): return
the existing release of the tag when the lookup succeeds; rethrow any lookup
error other than 404; on a 404 create the release under the gate, and under
dry-run only log and return the zero-valued placeholder release. -/
def getOrCreateRelease (dryRun : Bool) (github : GithubEnv)
    (tag revision : String) (isPreview : Bool := false) :
    Except ApiError GithubRelease × List GhCall :=
  match github.getReleaseByTag tag with
  | Except.ok release => (Except.ok release, [])
  | Except.error (ApiError.http code) => (Except.error (ApiError.http code), [])
  | Except.error ApiError.notFound =>
    if shouldPerform dryRun then
      (Except.ok (github.createRelease tag isPreview revision),
        [GhCall.createRelease tag])
    else
      (Except.ok { id := 0, tag_name := tag, upload_url := "" }, [])

/-- The upload fan-out of GithubTarget.publish (unnamed part_001 lines
288-316): every artifact is downloaded through the shared store in dry and
live mode alike, and the upload of the asset is issued only under the gate.
The concurrent Promise.all is embedded sequentially. -/
def githubPublishUploads (dryRun : Bool)
    (downloadClient : String → Except DownloadError String)
    (s : ZeusStoreState) : List Artifact → ZeusStoreState × List GhCall
  | [] => (s, [])
  | artifact :: rest =>
    let download := downloadArtifact downloadClient s artifact
    let calls : List GhCall :=
      if shouldPerform dryRun then [GhCall.uploadAsset artifact.name] else []
    let later := githubPublishUploads dryRun downloadClient download.2 rest
    (later.1, calls ++ later.2)

/-- GithubTarget.publish (unnamed part_001 lines 278-317): get or create the
release of the tag (the tag is the configured tag prefix followed by the
version, and the preview flag comes from the configuration and the version;
both are computed by the caller), propagate its error, then fetch the relevant
artifacts through getArtifactsForRevision and fan the uploads out. -/
def githubPublish (dryRun : Bool) (github : GithubEnv)
    (downloadClient : String → Except DownloadError String)
    (listClient : String → List Artifact) (s : ZeusStoreState)
    (targetFilterOptions : FilterOptions) (tag revision : String)
    (isPreview : Bool) :
    Except ApiError GithubRelease × ZeusStoreState × List GhCall :=
  let releaseStep := getOrCreateRelease dryRun github tag revision isPreview
  match releaseStep.1 with
  | Except.error e => (Except.error e, s, releaseStep.2)
  | Except.ok release =>
    let fetched := getArtifactsForRevision targetFilterOptions listClient s revision {}
    let uploads := githubPublishUploads dryRun downloadClient fetched.2 fetched.1
    (Except.ok release, uploads.1, releaseStep.2 ++ uploads.2)

lemma createReleaseBranch_dry_calls (git : GitEnv) (newVersion : String) :
    (createReleaseBranch true git newVersion).2 = [] := by
  cases hrev : git.revparse ("release/" ++ newVersion) with
  | ok sha =>
    by_cases hsha : (sha != "") = true <;>
      simp [createReleaseBranch, hrev, hsha, shouldPerform, reportError]
  | error err =>
    cases err <;>
      simp [createReleaseBranch, hrev, shouldPerform, reportError]

lemma createReleaseBranch_fst_mode (git : GitEnv) (newVersion : String) :
    (createReleaseBranch true git newVersion).1 =
      (createReleaseBranch false git newVersion).1 := by
  cases hrev : git.revparse ("release/" ++ newVersion) with
  | ok sha =>
    by_cases hsha : (sha != "") = true <;>
      simp [createReleaseBranch, hrev, hsha, shouldPerform, reportError]
  | error err =>
    cases err <;>
      simp [createReleaseBranch, hrev, shouldPerform, reportError]

lemma commitNewVersion_dry_calls (git : GitEnv) (newVersion : String) :
    (commitNewVersion true git newVersion).2 = [] := by
  simp only [commitNewVersion]
  split <;> rfl

lemma commitNewVersion_fst_mode (git : GitEnv) (newVersion : String) :
    (commitNewVersion true git newVersion).1 =
      (commitNewVersion false git newVersion).1 := by
  simp only [commitNewVersion]
  split <;> rfl

lemma pushReleaseBranch_dry_calls (branchName : String) (pushFlag : Bool) :
    (pushReleaseBranch true branchName pushFlag).2 = [] := by
  cases pushFlag <;> rfl

lemma pushReleaseBranch_fst (dryRun : Bool) (branchName : String)
    (pushFlag : Bool) :
    (pushReleaseBranch dryRun branchName pushFlag).1 = Except.ok () := by
  cases pushFlag <;> cases dryRun <;> rfl

lemma getOrCreateRelease_dry_calls (github : GithubEnv)
    (tag revision : String) (isPreview : Bool) :
    (getOrCreateRelease true github tag revision isPreview).2 = [] := by
  cases hbt : github.getReleaseByTag tag with
  | ok release => simp [getOrCreateRelease, hbt]
  | error err =>
    cases err <;> simp [getOrCreateRelease, hbt, shouldPerform]

lemma githubPublishUploads_dry_calls
    (downloadClient : String → Except DownloadError String) :
    ∀ (artifacts : List Artifact) (s : ZeusStoreState),
      (githubPublishUploads true downloadClient s artifacts).2 = []
  | [], _ => rfl
  | artifact :: rest, s => by
    simp [githubPublishUploads, shouldPerform,
      githubPublishUploads_dry_calls downloadClient rest]

/-- C1: the dry-run gate is inert and complete. A dry release run issues no
state-changing git call (no checkout, no commit, no push) yet computes
exactly the same result as the live run on the same environment; under
dry-run a 404 makes getOrCreateRelease return the zero-valued placeholder
release (id 0, the tag, empty upload URL) without a create call; a dry github
publish issues no create-release and no upload-asset call at all; and the dry
publish succeeds exactly when the live publish does. -/
theorem dry_run_is_inert :
    (∀ (git : GitEnv) (defaultBranch newVersion : String)
        (noGitChecks noPush : Bool),
      (releasePipeline true git defaultBranch newVersion noGitChecks
        noPush).2 = []) ∧
    (∀ (git : GitEnv) (defaultBranch newVersion : String)
        (noGitChecks noPush : Bool),
      (releasePipeline true git defaultBranch newVersion noGitChecks
          noPush).1 =
        (releasePipeline false git defaultBranch newVersion noGitChecks
          noPush).1) ∧
    (∀ (github : GithubEnv) (tag revision : String) (isPreview : Bool),
      github.getReleaseByTag tag = Except.error ApiError.notFound →
      getOrCreateRelease true github tag revision isPreview =
        (Except.ok { id := 0, tag_name := tag, upload_url := "" }, [])) ∧
    (∀ (github : GithubEnv)
        (downloadClient : String → Except DownloadError String)
        (listClient : String → List Artifact) (s : ZeusStoreState)
        (targetFilterOptions : FilterOptions) (tag revision : String)
        (isPreview : Bool),
      (githubPublish true github downloadClient listClient s
        targetFilterOptions tag revision isPreview).2.2 = []) ∧
    (∀ (github : GithubEnv)
        (downloadClient : String → Except DownloadError String)
        (listClient : String → List Artifact) (s : ZeusStoreState)
        (targetFilterOptions : FilterOptions) (tag revision : String)
        (isPreview : Bool),
      (githubPublish true github downloadClient listClient s
          targetFilterOptions tag revision isPreview).1.isOk =
        (githubPublish false github downloadClient listClient s
          targetFilterOptions tag revision isPreview).1.isOk) := by
  refine ⟨?_, ?_, ?_, ?_, ?_⟩
  · intro git defaultBranch newVersion noGitChecks noPush
    cases hchk : checkGitState git defaultBranch (!noGitChecks) with
    | error e => simp [releasePipeline, hchk]
    | ok u =>
      have hb := createReleaseBranch_dry_calls git newVersion
      cases hcb : (createReleaseBranch true git newVersion).1 with
      | error e => simp [releasePipeline, hchk, hcb, hb]
      | ok branchName =>
        cases hpre : runPreReleaseCommand git with
        | error e => simp [releasePipeline, hchk, hcb, hpre, hb]
        | ok v =>
          have hc := commitNewVersion_dry_calls git newVersion
          cases hcm : (commitNewVersion true git newVersion).1 with
          | error e => simp [releasePipeline, hchk, hcb, hpre, hcm, hb, hc]
          | ok w =>
            have hp := pushReleaseBranch_dry_calls branchName (!noPush)
            cases hps : (pushReleaseBranch true branchName (!noPush)).1 with
            | error e =>
              simp [releasePipeline, hchk, hcb, hpre, hcm, hps, hb, hc, hp]
            | ok x =>
              simp [releasePipeline, hchk, hcb, hpre, hcm, hps, hb, hc, hp]
  · intro git defaultBranch newVersion noGitChecks noPush
    cases hchk : checkGitState git defaultBranch (!noGitChecks) with
    | error e => simp [releasePipeline, hchk]
    | ok u =>
      have hb := createReleaseBranch_fst_mode git newVersion
      cases hcb : (createReleaseBranch false git newVersion).1 with
      | error e =>
        rw [hcb] at hb
        simp [releasePipeline, hchk, hb, hcb]
      | ok branchName =>
        rw [hcb] at hb
        cases hpre : runPreReleaseCommand git with
        | error e => simp [releasePipeline, hchk, hb, hcb, hpre]
        | ok v =>
          have hcm2 := commitNewVersion_fst_mode git newVersion
          cases hcm : (commitNewVersion false git newVersion).1 with
          | error e =>
            rw [hcm] at hcm2
            simp [releasePipeline, hchk, hb, hcb, hpre, hcm, hcm2]
          | ok w =>
            rw [hcm] at hcm2
            simp [releasePipeline, hchk, hb, hcb, hpre, hcm, hcm2,
              pushReleaseBranch_fst]
  · intro github tag revision isPreview h
    simp [getOrCreateRelease, h, shouldPerform]
  · intro github downloadClient listClient s targetFilterOptions tag revision
      isPreview
    have hrel := getOrCreateRelease_dry_calls github tag revision isPreview
    cases h : (getOrCreateRelease true github tag revision isPreview).1 with
    | error e => simp [githubPublish, h, hrel]
    | ok release =>
      simp [githubPublish, h, hrel, githubPublishUploads_dry_calls]
  · intro github downloadClient listClient s targetFilterOptions tag revision
      isPreview
    cases hbt : github.getReleaseByTag tag with
    | ok release => simp [githubPublish, getOrCreateRelease, hbt]
    | error err =>
      cases err <;>
        simp [githubPublish, getOrCreateRelease, hbt, shouldPerform,
          Except.isOk, Except.toBool]

/-- Witness: dry_run_is_inert applied at a concrete environment whose release
lookup answers 404: the dry getOrCreateRelease returns the placeholder
release and no create call. -/
theorem dry_run_is_inert_witness :
    getOrCreateRelease true
        { getReleaseByTag := fun _ => Except.error ApiError.notFound
          createRelease := fun tag _ _ =>
            { id := 1, tag_name := tag, upload_url := "https://u" } }
        "v1.0.0" "deadbeef" false =
      (Except.ok { id := 0, tag_name := "v1.0.0", upload_url := "" }, []) :=
  dry_run_is_inert.2.2.1
    { getReleaseByTag := fun _ => Except.error ApiError.notFound
      createRelease := fun tag _ _ =>
        { id := 1, tag_name := tag, upload_url := "https://u" } }
    "v1.0.0" "deadbeef" false rfl

end Craft
